import Mathlib

/-!
Shallow embedding of the bioconda-utils git/GitHub handling layer
(src/bioconda_utils/githandler.py and src/bioconda_utils/githubhandler.py).

External collaborators — GitPython, the `git log` subprocess, the HTTP
transport behind gidgethub, jwt.encode, and the system clock — are passed
into the embedded functions as explicit parameters.  Each definition below
translates the control flow of the corresponding Python function; doc
comments cite the source lines.
-/

deriving instance DecidableEq for Except

namespace Bioconda

/-- Python's substring test `pat in s` on strings: true when `pat` occurs
contiguously inside `s`. -/
def pyInStr (pat s : String) : Bool := decide (pat.data <:+: s.data)

/-- Python truthiness of an optional string: `None` and `""` are falsy. -/
def pyTruthy : Option String → Bool
  | none => false
  | some s => s != ""

/-- Python truthiness of an optional list: `None` and `[]` are falsy. -/
def pyTruthyList : Option (List String) → Bool
  | none => false
  | some l => !l.isEmpty

/-- Errors surfaced by the embedded Python fragments. -/
inductive PyError where
  | valueError
  | indexError
  | runtimeError (msg : String)
  | keyError
deriving DecidableEq

/-! ## githandler.py -/

/-- A git remote as exposed by GitPython: its configured name and URLs. -/
structure Remote where
  name : String
  urls : List String
deriving DecidableEq

/-- GitHandlerBase.get_remote (githandler.py:59-67): exact name match first
(`desc in [r.name for r in remotes]` followed by indexing, i.e. the first
remote of that name), else the first remote with `desc` contained in one of
its URLs, else KeyError. -/
def get_remote (remotes : List Remote) (desc : String) : Except String Remote :=
  match remotes.find? (fun r => r.name == desc) with
  | some r => .ok r
  | none =>
      match remotes.filter (fun r => r.urls.any (fun u => pyInStr desc u)) with
      | [] => .error ("No remote matching " ++ desc ++ " found")
      | r :: _ => .ok r

/-- GitHandlerBase.branch_is_current (githandler.py:69-77): the output of the
`git log -1 --oneline --decorate master...branch -- path` subprocess is an
external input; the function returns `branch.name in stdout`. -/
def branch_is_current (branchName : String) (logOutput : String) : Bool :=
  pyInStr branchName logOutput

/-- Decoration list as `git log --decorate` renders it: comma-space separated. -/
def joinDecos : List String → String
  | [] => ""
  | [d] => d
  | d :: rest => d ++ ", " ++ joinDecos rest

/-- One line of `git log -1 --oneline --decorate` output: abbreviated hash,
the decorations in parentheses when present, then the subject line. -/
def mkOneline (hash : String) (decos : List String) (subject : String) : String :=
  if decos.isEmpty then hash ++ " " ++ subject
  else hash ++ " (" ++ joinDecos decos ++ ") " ++ subject

/-- Components of a POSIX path: the character list split at every slash
(Python str.split("/")). -/
def splitSlash : List Char → List (List Char)
  | [] => [[]]
  | c :: rest =>
      let r := splitSlash rest
      if c == '/' then [] :: r
      else (c :: r.headD []) :: r.tail

/-- Component normalization of os.path.normpath for absolute paths: empty and
"." components are dropped, ".." pops the previously kept component (at the
root it is dropped).  The first argument is the stack of kept components in
reverse order. -/
def normParts : List (List Char) → List (List Char) → List (List Char)
  | stack, [] => stack.reverse
  | stack, [] :: rest => normParts stack rest
  | stack, ['.'] :: rest => normParts stack rest
  | stack, ['.', '.'] :: rest => normParts stack.tail rest
  | stack, d :: rest => normParts (d :: stack) rest

/-- Reassemble path components with slashes between them. -/
def joinPath : List (List Char) → List Char
  | [] => []
  | [p] => p
  | p :: rest => p ++ '/' :: joinPath rest

/-- True when the path is absolute (leading slash). -/
def startsSlash : List Char → Bool
  | '/' :: _ => true
  | _ => false

/-- os.path.abspath (external collaborator, CPython posixpath) against process
working directory **cwd** (itself an absolute path), on character lists:
relative paths are joined to cwd, then the result is normalized. -/
def abspathL (cwd p : List Char) : List Char :=
  let full := if startsSlash p then p else cwd ++ '/' :: p
  '/' :: joinPath (normParts [] (splitSlash full))

/-- os.path.abspath on strings. -/
def abspath (cwd p : String) : String := String.mk (abspathL cwd.data p.data)

/-- GitHandlerBase.read_from_branch (githandler.py:105-114).  The branch's
commit tree is external, modelled as a partial map from tree-relative path to
blob contents (GitPython raises KeyError when the path is missing from the
tree).  Python's startswith, len-based slicing and lstrip("/") act on the
character lists. -/
def read_from_branch (cwd workingDir fileName : String)
    (tree : String → Option String) : Except PyError String :=
  let absFileName := abspathL cwd.data fileName.data
  let absRepoRoot := abspathL cwd.data workingDir.data
  if !absRepoRoot.isPrefixOf absFileName then
    .error (.runtimeError ("File " ++ String.mk absFileName ++ " not inside "
                            ++ String.mk absRepoRoot))
  else
    match tree (String.mk ((absFileName.drop absRepoRoot.length).dropWhile
                            (fun c => c == '/'))) with
    | some content => .ok content
    | none => .error .keyError

/-- Specification-level containment: an absolute normalized path lies inside
directory **root** iff it is root itself or extends root at a component
boundary. -/
def isInsideDir (p root : String) : Bool :=
  p.data == root.data || (root.data ++ ['/']).isPrefixOf p.data

/-- GitHandlerBase.delete_remote_branch (githandler.py:83-89): result is the
list of refspecs pushed to the fork remote — empty under dry-run, where the
deletion is only logged. -/
def delete_remote_branch (dryRun : Bool) (branchName : String) : List String :=
  if !dryRun then [":" ++ branchName] else []

/-- Contents of the git index or of a commit tree: an association list from
file path to blob contents. -/
abbrev FileMap := List (String × String)

/-- Record one file's working-tree content into the index (one path of
repo.index.add). -/
def indexAdd (workdir : String → String) (m : FileMap) (f : String) : FileMap :=
  (f, workdir f) :: m.eraseP (fun e => e.1 == f)

/-- repo.index.add(files): stage the working-tree content of every listed
file. -/
def stage (files : List String) (workdir : String → String) (m : FileMap) : FileMap :=
  files.foldl (indexAdd workdir) m

/-- File paths bound in a map. -/
def keysFM (m : FileMap) : List String := m.map (fun e => e.1)

/-- repo.index.diff("HEAD") produced no difference: every path bound on either
side has the same content on both. -/
def diffEmpty (index head : FileMap) : Bool :=
  (keysFM index ++ keysFM head).all (fun k => index.lookup k == head.lookup k)

/-- State of the local repository visible to commit_and_push_changes, plus the
log of branch pushes sent to the fork remote. -/
structure GitState where
  workdir : String → String
  index : FileMap
  head : FileMap
  commits : List String
  pushes : List String

/-- git.PushInfo.FAST_FORWARD flag bit (GitPython). -/
def FAST_FORWARD : Nat := 256

/-- git.PushInfo.NEW_HEAD flag bit (GitPython). -/
def NEW_HEAD : Nat := 2

/-- GitHandlerBase.commit_and_push_changes (githandler.py:132-157).  The push
result flags and summary come back from the remote and are parameters.  A
commit records the staged index as the new HEAD tree; the `sign` path shells
out to `git commit -S` with the same effect on this state.  The failure test
`flags & ~(FAST_FORWARD | NEW_HEAD)` being nonzero is expressed as the flags
having a bit outside that mask. -/
def commit_and_push_changes (dryRun : Bool) (pushFlags : Nat) (pushSummary : String)
    (st : GitState) (files : List String) (branchName msg : String) (sign : Bool) :
    Except String (GitState × Bool) :=
  let index1 := stage files st.workdir st.index
  if diffEmpty index1 st.head then
    .ok ({ st with index := index1 }, false)
  else
    let st1 : GitState :=
      { st with index := index1, head := index1, commits := msg :: st.commits }
    if !dryRun then
      if pushFlags &&& (FAST_FORWARD ||| NEW_HEAD) != pushFlags then
        .error pushSummary
      else
        .ok ({ st1 with pushes := branchName :: st1.pushes }, true)
    else
      .ok (st1, true)

/-! ## githubhandler.py -/

/-- gidgethub exception classes raised for non-success HTTP statuses.  In
gidgethub's hierarchy InvalidField and RateLimitExceeded are declared as
subclasses of BadRequest, while GitHubBroken, RedirectionException and the
base HTTPException are not; the subclass relation is captured by
`isBadRequestClass` below. -/
inductive GidgetError where
  | badRequest (status : Nat)
  | invalidField
  | rateLimitExceeded
  | gitHubBroken (status : Nat)
  | redirectionException (status : Nat)
  | httpException (status : Nat)
deriving DecidableEq

/-- Python isinstance(e, gidgethub.BadRequest): true for BadRequest itself and
for its subclasses InvalidField and RateLimitExceeded; false for GitHubBroken,
RedirectionException and plain HTTPException, which sit outside that branch of
the hierarchy. -/
def isBadRequestClass : GidgetError → Bool
  | .badRequest _ => true
  | .invalidField => true
  | .rateLimitExceeded => true
  | .gitHubBroken _ => false
  | .redirectionException _ => false
  | .httpException _ => false

/-- gidgethub.sansio response classification (external collaborator): 2xx is
success, 5xx raises GitHubBroken, a 403 with exhausted rate limit raises
RateLimitExceeded, 422 raises InvalidField, any other 4xx raises BadRequest,
3xx raises RedirectionException and anything else HTTPException. -/
def classifyStatus (status : Nat) (rateLimited : Bool) : Option GidgetError :=
  if status == 200 || status == 201 || status == 204 then none
  else if 500 ≤ status then some (.gitHubBroken status)
  else if 400 ≤ status then
    if status == 403 && rateLimited then some .rateLimitExceeded
    else if status == 422 then some .invalidField
    else some (.badRequest status)
  else if 300 ≤ status then some (.redirectionException status)
  else some (.httpException status)

/-- GitHubHandler.is_member (githubhandler.py:83-95).  The outcome of the
membership GET is external: **outcome** is none if the call succeeded, or the
gidgethub error it raised.  The `except gidgethub.BadRequest` clause catches
everything of the BadRequest class — BadRequest itself and its subclasses
InvalidField and RateLimitExceeded — and maps it to `false`; errors outside
that class propagate. -/
def is_member (username : Option String) (outcome : Option GidgetError) :
    Except GidgetError Bool :=
  if !pyTruthy username then .ok false
  else
    match outcome with
    | none => .ok true
    | some e => if isBadRequestClass e then .ok false else .error e

/-- GitHubAppHandler.JWT_RENEW_PERIOD (githubhandler.py:264). -/
def JWT_RENEW_PERIOD : Int := 600

/-- GitHubAppHandler.get_app_jwt (githubhandler.py:289-308).  **now** is the
clock reading `int(time.time())`, **jwtState** the cached `_jwt` pair
(initially `(0, "")`), and **encode** stands for jwt.encode over the payload
(iat, exp, iss) — minting is external.  Returns the new `_jwt` pair and the
token handed out. -/
def get_app_jwt (now : Int) (jwtState : Int × String)
    (encode : Int → Int → String) : (Int × String) × String :=
  let expires := jwtState.1
  let token := jwtState.2
  if expires == 0 || expires < now + 60 then
    let expires1 := now + JWT_RENEW_PERIOD
    let token1 := encode now expires1
    ((expires1, token1), token1)
  else
    ((expires, token), token)

/-- Numeric value of a decimal digit character. -/
def digitVal (c : Char) : Nat := c.toNat - 48

/-- Greedily read one or two decimal digits — the field patterns that CPython
_strptime compiles for %m, %d, %H, %M and %S all match one or two digits, and
in this fixed format every field is followed by a non-digit separator or the
end of the string, so maximal munch is equivalent to the regex. -/
def munch2 : List Char → Option (Nat × List Char)
  | c1 :: c2 :: rest =>
      if c1.isDigit then
        if c2.isDigit then some (digitVal c1 * 10 + digitVal c2, rest)
        else some (digitVal c1, c2 :: rest)
      else none
  | [c1] => if c1.isDigit then some (digitVal c1, []) else none
  | [] => none

/-- Read exactly four decimal digits — the %Y field pattern of _strptime. -/
def munch4 : List Char → Option (Nat × List Char)
  | c1 :: c2 :: c3 :: c4 :: rest =>
      if c1.isDigit && c2.isDigit && c3.isDigit && c4.isDigit then
        some (((digitVal c1 * 10 + digitVal c2) * 10 + digitVal c3) * 10
                + digitVal c4, rest)
      else none
  | _ => none

/-- Consume one expected literal character. -/
def lit (c : Char) : List Char → Option (List Char)
  | d :: rest => if d == c then some rest else none
  | [] => none

/-- Range test for a parsed field. -/
def rangeOk (lo hi n : Nat) : Bool := lo ≤ n && n ≤ hi

/-- One ranged numeric field followed by a literal separator. -/
def strpField (lo hi : Nat) (sep : Char) (s : List Char) : Option (Nat × List Char) :=
  match munch2 s with
  | none => none
  | some (n, s1) =>
      if rangeOk lo hi n then
        match lit sep s1 with
        | none => none
        | some s2 => some (n, s2)
      else none

/-- The final ranged numeric field; no unconverted data may remain. -/
def strpLast (lo hi : Nat) (s : List Char) : Option Nat :=
  match munch2 s with
  | none => none
  | some (n, s1) => if rangeOk lo hi n && s1.isEmpty then some n else none

/-- time.strptime(s, "%Y-%m-%dT%H:%M:%S") (external collaborator, CPython
_strptime): four-digit year, one-or-two-digit month, day, hour, minute and
second within the regex ranges (month 1-12, day 1-31, hour 0-23, minute 0-59,
second 0-61), fixed literal separators, and no unconverted trailing data. -/
def strptimeIso (s0 : List Char) : Option (Nat × Nat × Nat × Nat × Nat × Nat) :=
  Option.bind (munch4 s0) (fun py =>
  Option.bind (lit '-' py.2) (fun s2 =>
  Option.bind (strpField 1 12 '-' s2) (fun pmo =>
  Option.bind (strpField 1 31 'T' pmo.2) (fun pd =>
  Option.bind (strpField 0 23 ':' pd.2) (fun ph =>
  Option.bind (strpField 0 59 ':' ph.2) (fun pmi =>
  Option.bind (strpLast 0 61 pmi.2) (fun s =>
  some (py.1, pmo.1, pd.1, ph.1, pmi.1, s))))))))

/-- Decimal digit character. -/
def digitChar (n : Nat) : Char := Char.ofNat (48 + n)

/-- Four-digit zero-padded decimal field. -/
def pad4 (n : Nat) : List Char :=
  [digitChar (n / 1000), digitChar (n / 100 % 10), digitChar (n / 10 % 10),
   digitChar (n % 10)]

/-- Two-digit zero-padded decimal field. -/
def pad2 (n : Nat) : List Char := [digitChar (n / 10), digitChar (n % 10)]

/-- Character list of a zero-padded timestamp `YYYY-MM-DDTHH:MM:SS`. -/
def isoBody (y mo d h mi s : Nat) : List Char :=
  pad4 y ++ '-' :: pad2 mo ++ '-' :: pad2 d ++ 'T' :: pad2 h
    ++ ':' :: pad2 mi ++ ':' :: pad2 s

/-- A zero-padded UTC ISO-8601 timestamp `YYYY-MM-DDTHH:MM:SSZ`, the shape the
GitHub token endpoint uses for `expires_at`. -/
def isoZ (y mo d h mi s : Nat) : String :=
  String.mk (isoBody y mo d h mi s ++ ['Z'])

/-- Days since 1970-01-01 of a civil date — Howard Hinnant's days_from_civil
as used by C mktime implementations, with truncating division (Int.tdiv). -/
def daysFromCivil (y mo d : Int) : Int :=
  let y1 := if mo ≤ 2 then y - 1 else y
  let era := Int.tdiv (if 0 ≤ y1 then y1 else y1 - 399) 400
  let yoe := y1 - era * 400
  let mp := if 2 < mo then mo - 3 else mo + 9
  let doy := Int.tdiv (153 * mp + 2) 5 + d - 1
  let doe := yoe * 365 + Int.tdiv yoe 4 - Int.tdiv yoe 100 + doy
  era * 146097 + doe - 719468

/-- int(time.mktime(...)): seconds since the epoch of the broken-down time,
modelled with the process timezone fixed to UTC (zero offset, no DST), so
that the value is the timestamp's seconds-since-epoch. -/
def mktimeUTC (y mo d h mi s : Nat) : Int :=
  daysFromCivil y mo d * 86400 + h * 3600 + mi * 60 + s

/-- GitHubAppHandler.parse_isotime (githubhandler.py:310-315): the final
character must be the literal 'Z' (ValueError otherwise; indexing an empty
string is an IndexError), then the rest is parsed by strptime — a parse
failure is again a ValueError — and converted with mktime. -/
def parse_isotime (timestr : String) : Except PyError Int :=
  match timestr.data.getLast? with
  | none => .error .indexError
  | some c =>
      if c ≠ 'Z' then .error .valueError
      else
        match strptimeIso timestr.data.dropLast with
        | none => .error .valueError
        | some (y, mo, d, h, mi, s) => .ok (mktimeUTC y mo d h mi s)

/-- The `_tokens` cache: installation id → (expires, token). -/
abbrev TokenCache := List (String × Int × String)

/-- Python dict assignment on the token cache. -/
def setToken (cache : TokenCache) (inst : String) (v : Int × String) : TokenCache :=
  (inst, v) :: cache.eraseP (fun e => e.1 == inst)

/-- GitHubAppHandler.get_installation_token (githubhandler.py:317-346).  The
POST to the token-issuance endpoint is external; **response** is the
(expires_at, token) payload it returns when it is called (a BadRequest from
the endpoint would be logged and re-raised, outside this success-path model).
The result carries the updated cache, the token returned to the caller, and
the number of issuance calls that were made (0 or 1). -/
def get_installation_token (now : Int) (cache : TokenCache) (installation : String)
    (response : String × String) : Except PyError (TokenCache × String × Nat) :=
  let st := (cache.lookup installation).getD (0, "")
  let expires := st.1
  let token := st.2
  if expires == 0 || expires < now + 60 then
    match parse_isotime response.1 with
    | .error e => .error e
    | .ok expires1 =>
        .ok (setToken cache installation (expires1, response.2), response.2, 1)
  else
    .ok (cache, token, 0)

/-- Fields of a GitHubHandler relevant here (githubhandler.py:44-55): oauth
token, dry-run flag, and the default user/repo template variables. -/
structure Handler where
  token : String
  dry_run : Bool
  to_user : String
  to_repo : String
deriving DecidableEq

/-- Payload assembled by create_pr. -/
structure PrData where
  title : String
  body : String
  maintainer_can_modify : Bool
  head : Option String
  base : Option String
deriving DecidableEq

/-- Result of create_pr: the dry-run sentinel dict `{'number': -1}`, or a POST
to the pulls endpoint carrying the payload (whose response the function passes
through). -/
inductive PrOut where
  | sentinel (number : Int)
  | posted (data : PrData)
deriving DecidableEq

/-- GitHubHandler.create_pr (githubhandler.py:131-168).  **selfUsername** is
`self.username` (None before login). -/
def create_pr (dryRun : Bool) (selfUsername : Option String) (title : String)
    (fromBranch fromUser toBranch body : Option String)
    (maintainerCanModify : Bool) : PrOut :=
  let fromUser1 := if !pyTruthy fromUser then selfUsername else fromUser
  let body1 := if pyTruthy body then "" ++ body.getD "" else ""
  let head := if pyTruthy fromBranch then
      some (if pyTruthy fromUser1 && fromUser1 != selfUsername then
              fromUser1.getD "" ++ ":" ++ fromBranch.getD ""
            else fromBranch.getD "")
    else none
  let base := if pyTruthy toBranch then toBranch else none
  let data : PrData := { title := title, body := body1,
                         maintainer_can_modify := maintainerCanModify,
                         head := head, base := base }
  if dryRun then .sentinel (-1) else .posted data

/-- Result of create_comment: the dry-run sentinel `-1`, or a POST of the
comment body for the issue (the created comment's id is read from the
response). -/
inductive CommentOut where
  | sentinel (commentId : Int)
  | posted (number : Int) (body : String)
deriving DecidableEq

/-- GitHubHandler.create_comment (githubhandler.py:204-221). -/
def create_comment (dryRun : Bool) (number : Int) (body : String) : CommentOut :=
  if dryRun then .sentinel (-1) else .posted number body

/-- Partial-update payload assembled by modify_issue: only truthy fields are
sent. -/
structure IssuePatch where
  labels : Option (List String)
  title : Option String
  body : Option String
deriving DecidableEq

/-- Result of modify_issue: the dry-run sentinel dict containing just the
number, or a PATCH of the payload to the issues endpoint. -/
inductive IssueOut where
  | sentinel (number : Int)
  | patched (number : Int) (data : IssuePatch)
deriving DecidableEq

/-- GitHubHandler.modify_issue (githubhandler.py:170-202). -/
def modify_issue (dryRun : Bool) (number : Int) (labels : Option (List String))
    (title body : Option String) : IssueOut :=
  let data : IssuePatch :=
    { labels := if pyTruthyList labels then labels else none,
      title := if pyTruthy title then title else none,
      body := if pyTruthy body then body else none }
  if dryRun then .sentinel number else .patched number data

/-- The `_handlers` cache of GitHubAppHandler: (installation, repo) → handler. -/
abbrev HandlerCache := List ((String × String) × Handler)

/-- Python dict assignment on the handler cache. -/
def setHandler (cache : HandlerCache) (key : String × String) (h : Handler) :
    HandlerCache :=
  (key, h) :: cache.eraseP (fun e => e.1 == key)

/-- GitHubAppHandler.get_github_api (githubhandler.py:348-364).  **freshToken**
is the installation token obtained through get_installation_token (external to
this function).  A cached handler has its oauth token overwritten in place via
set_oauth_token; otherwise an AiohttpGitHubHandler is constructed with
dry_run=False, stored under (installation, repo) and returned. -/
def get_github_api (handlers : HandlerCache) (installation user repo : String)
    (freshToken : String) : HandlerCache × Handler :=
  let key := (installation, repo)
  match handlers.lookup key with
  | some api =>
      let api1 := { api with token := freshToken }
      (setHandler handlers key api1, api1)
  | none =>
      let api : Handler := { token := freshToken, dry_run := false,
                             to_user := user, to_repo := repo }
      (setHandler handlers key api, api)

/-! ## Helper lemmas -/

theorem find?_eq_head_filter {α : Type} (p : α → Bool) (l : List α) :
    l.find? p = (l.filter p).head? := by
  induction l with
  | nil => rfl
  | cons a t ih =>
      cases h : p a with
      | true =>
          rw [List.find?_cons_of_pos _ h, List.filter_cons_of_pos h, List.head?_cons]
      | false =>
          rw [List.find?_cons_of_neg _ (by simp [h]),
              List.filter_cons_of_neg (by simp [h]), ih]

theorem lookup_cons_eq {κ β : Type} [BEq κ] [LawfulBEq κ] (k : κ) (v : β)
    (t : List (κ × β)) : ((k, v) :: t).lookup k = some v := by
  simp [List.lookup_cons]

theorem lookup_cons_ne {κ β : Type} [BEq κ] [LawfulBEq κ] {k k1 : κ}
    (h : (k == k1) = false) (v1 : β) (t : List (κ × β)) :
    ((k1, v1) :: t).lookup k = t.lookup k := by
  simp [List.lookup_cons, h]

theorem lookup_mem {κ β : Type} [BEq κ] [LawfulBEq κ] {l : List (κ × β)} {k : κ}
    {v : β} (h : l.lookup k = some v) : (k, v) ∈ l := by
  induction l with
  | nil => simp [List.lookup] at h
  | cons a t ih =>
      obtain ⟨k1, v1⟩ := a
      cases hbe : (k == k1) with
      | true =>
          have hk : k = k1 := by simpa using hbe
          subst hk
          rw [lookup_cons_eq] at h
          injection h with h2
          subst h2
          exact List.mem_cons_self _ _
      | false =>
          rw [lookup_cons_ne hbe] at h
          exact List.mem_cons_of_mem _ (ih h)

theorem lookup_eraseP_ne {κ β : Type} [BEq κ] [LawfulBEq κ]
    (l : List (κ × β)) (f k : κ) (h : (k == f) = false) :
    (l.eraseP (fun e => e.1 == f)).lookup k = l.lookup k := by
  induction l with
  | nil => rfl
  | cons a t ih =>
      obtain ⟨k1, v1⟩ := a
      cases hf : (k1 == f) with
      | true =>
          have h1 : k1 = f := by simpa using hf
          subst h1
          simp only [List.eraseP_cons, hf, cond_true]
          rw [lookup_cons_ne h]
      | false =>
          simp only [List.eraseP_cons, hf, cond_false]
          cases hkk : (k == k1) with
          | true =>
              have hk : k = k1 := by simpa using hkk
              subst hk
              rw [lookup_cons_eq, lookup_cons_eq]
          | false => rw [lookup_cons_ne hkk, lookup_cons_ne hkk]; exact ih

/-! ## C5: get_remote resolution -/

/-- C5: get_remote returns the remote whose name equals the search string when
one exists; otherwise the first remote, in iteration order, having the string
as a substring of one of its URLs; and it errors exactly when neither an
exact-name match nor a URL-substring match exists. -/
theorem get_remote_spec (remotes : List Remote) (desc : String) :
    (∀ r, remotes.find? (fun r => r.name == desc) = some r →
        get_remote remotes desc = .ok r) ∧
    ((∀ r ∈ remotes, r.name ≠ desc) →
      ∀ r, remotes.find? (fun r => r.urls.any (fun u => pyInStr desc u)) = some r →
        get_remote remotes desc = .ok r) ∧
    ((∃ e, get_remote remotes desc = .error e) ↔
      ∀ r ∈ remotes, r.name ≠ desc ∧ ∀ u ∈ r.urls, pyInStr desc u = false) := by
  refine ⟨?_, ?_, ?_⟩
  · intro r h
    simp [get_remote, h]
  · intro hname r h
    have hn : remotes.find? (fun r => r.name == desc) = none := by
      rw [List.find?_eq_none]
      intro x hx
      simp [hname x hx]
    rw [find?_eq_head_filter] at h
    cases hf : remotes.filter (fun r => r.urls.any (fun u => pyInStr desc u)) with
    | nil => rw [hf] at h; simp at h
    | cons x t =>
        rw [hf] at h
        simp at h
        subst h
        simp [get_remote, hn, hf]
  · constructor
    · rintro ⟨e, he⟩ r hr
      cases hn : remotes.find? (fun r => r.name == desc) with
      | some x => simp [get_remote, hn] at he
      | none =>
          cases hf : remotes.filter (fun r => r.urls.any (fun u => pyInStr desc u)) with
          | cons x t => simp [get_remote, hn, hf] at he
          | nil =>
              have h1 := List.find?_eq_none.mp hn r hr
              have h2 := List.filter_eq_nil_iff.mp hf r hr
              refine ⟨by simpa using h1, ?_⟩
              intro u hu
              simp only [List.any_eq_true, not_exists, not_and] at h2
              by_contra hc
              exact absurd (by simpa using hc) (by simpa using h2 u hu)
    · intro hall
      have hn : remotes.find? (fun r => r.name == desc) = none := by
        rw [List.find?_eq_none]
        intro x hx
        simp [(hall x hx).1]
      have hf : remotes.filter (fun r => r.urls.any (fun u => pyInStr desc u)) = [] := by
        rw [List.filter_eq_nil_iff]
        intro x hx
        simp only [List.any_eq_true, not_exists, not_and]
        intro u hu
        simp [(hall x hx).2 u hu]
      exact ⟨"No remote matching " ++ desc ++ " found", by simp [get_remote, hn, hf]⟩

/-- Witness for C5 at a concrete remote configuration: the name match and the
URL-substring match of get_remote_spec, each evaluated. -/
theorem get_remote_spec_witness :
    get_remote [⟨"origin", ["https://github.com/bioconda/bioconda-recipes.git"]⟩,
                ⟨"fork", ["https://github.com/alice/bioconda-recipes.git"]⟩] "fork"
        = .ok ⟨"fork", ["https://github.com/alice/bioconda-recipes.git"]⟩
      ∧ get_remote [⟨"origin", ["https://github.com/bioconda/bioconda-recipes.git"]⟩,
                    ⟨"fork", ["https://github.com/alice/bioconda-recipes.git"]⟩] "alice"
        = .ok ⟨"fork", ["https://github.com/alice/bioconda-recipes.git"]⟩ := by
  constructor
  · exact (get_remote_spec _ "fork").1 _ (by decide)
  · exact (get_remote_spec _ "alice").2.1 (by decide) _ (by decide)

/-! ## C2: branch_is_current -/

theorem joinDecos_cons_cons (d e : String) (t : List String) :
    joinDecos (d :: e :: t) = d ++ ", " ++ joinDecos (e :: t) := rfl

theorem infix_joinDecos {name : String} {decos : List String} (h : name ∈ decos) :
    name.data <:+: (joinDecos decos).data := by
  induction decos with
  | nil => cases h
  | cons d t ih =>
      cases t with
      | nil =>
          have hd : name = d := List.mem_singleton.mp h
          subst hd
          exact List.infix_refl _
      | cons e t2 =>
          rw [joinDecos_cons_cons]
          rcases List.mem_cons.mp h with hh | h2
          · subst hh
            refine ⟨[], (", " ++ joinDecos (e :: t2)).data, ?_⟩
            simp [String.data_append, List.append_assoc]
          · obtain ⟨s, u, hsu⟩ := ih h2
            refine ⟨(d ++ ", ").data ++ s, u, ?_⟩
            simp only [String.data_append]
            rw [List.append_assoc, List.append_assoc]
            rw [← List.append_assoc s, hsu]

/-- C2 (amended): branch_is_current is a substring test over the whole
decorated one-line log output.  Whenever the most recent path-touching commit
is decorated with the branch's name, it returns true; but the converse of the
original claim fails, because the branch name occurring anywhere else in the
line (for example in the commit subject) also yields true. -/
theorem branch_is_current_of_decoration (branchName hash subject : String)
    (decos : List String) (h : branchName ∈ decos) :
    branch_is_current branchName (mkOneline hash decos subject) = true := by
  cases decos with
  | nil => cases h
  | cons d t =>
      unfold branch_is_current pyInStr
      rw [decide_eq_true_iff]
      have hm : mkOneline hash (d :: t) subject
          = hash ++ " (" ++ joinDecos (d :: t) ++ ") " ++ subject := by
        simp [mkOneline]
      rw [hm]
      obtain ⟨s, u, hsu⟩ := infix_joinDecos h
      refine ⟨(hash ++ " (").data ++ s, u ++ (") " ++ subject).data, ?_⟩
      simp only [String.data_append]
      rw [← hsu]
      simp [List.append_assoc]

/-- C2 counterexample: the most recent commit of this log line is decorated
only with origin/master, not with branch foo, yet branch_is_current returns
true because "foo" occurs in the commit subject — refuting the only-if
direction of the claim. -/
theorem branch_is_current_counterexample :
    branch_is_current "foo" (mkOneline "abc1234" ["origin/master"] "update foo recipe")
        = true
      ∧ "foo" ∉ ["origin/master"] := by
  constructor
  · decide
  · decide

/-- Witness for the amended C2 at a concrete decorated log line. -/
theorem branch_is_current_of_decoration_witness :
    branch_is_current "bump/foo"
      (mkOneline "ab12cd3" ["bump/foo", "origin/bump/foo"] "Update foo") = true :=
  branch_is_current_of_decoration "bump/foo" "ab12cd3" "Update foo" _ (by decide)

/-! ## C3: get_app_jwt cache -/

/-- C3: with a cached pair (e, token) whose expiry is set and at least 60
seconds after now, get_app_jwt returns the cached token and leaves the cache
unchanged; when the expiry is unset (0) or under 60 seconds away it mints,
stores expiry now + 600 with the fresh token, and returns it.  In particular
at now = e - 61 the token is reused and at now = e - 59 it is regenerated
with expiry (e - 59) + 600. -/
theorem get_app_jwt_spec (now e : Int) (tok : String) (encode : Int → Int → String) :
    (e ≠ 0 → now + 60 ≤ e →
        get_app_jwt now (e, tok) encode = ((e, tok), tok)) ∧
    ((e = 0 ∨ e < now + 60) →
        get_app_jwt now (e, tok) encode
          = ((now + 600, encode now (now + 600)), encode now (now + 600))) ∧
    (e ≠ 0 → get_app_jwt (e - 61) (e, tok) encode = ((e, tok), tok)) ∧
    (get_app_jwt (e - 59) (e, tok) encode
        = ((e - 59 + 600, encode (e - 59) (e - 59 + 600)),
           encode (e - 59) (e - 59 + 600))) := by
  refine ⟨?_, ?_, ?_, ?_⟩
  · intro h0 h1
    have hc : (e == 0 || decide (e < now + 60)) = false := by
      simp only [Bool.or_eq_false_iff, beq_eq_false_iff_ne, decide_eq_false_iff_not]
      exact ⟨h0, by omega⟩
    simp [get_app_jwt, hc]
  · intro h
    have hc : (e == 0 || decide (e < now + 60)) = true := by
      rcases h with h | h <;> simp [h]
    simp [get_app_jwt, hc, JWT_RENEW_PERIOD]
  · intro h0
    have hc : (e == 0 || decide (e < e - 61 + 60)) = false := by
      simp only [Bool.or_eq_false_iff, beq_eq_false_iff_ne, decide_eq_false_iff_not]
      exact ⟨h0, by omega⟩
    simp [get_app_jwt, hc]
  · have hc : (e == 0 || decide (e < e - 59 + 60)) = true := by
      have : e < e - 59 + 60 := by omega
      simp [this]
    simp [get_app_jwt, hc, JWT_RENEW_PERIOD]

/-- A concrete stand-in for jwt.encode. -/
def encodeC : Int → Int → String := fun _ _ => "jwt2"

/-- Witness for C3: at now = 100 a token expiring at 161 (61 seconds away) is
reused; at now = 102 (59 seconds before expiry) a fresh token is minted with
expiry 702 = 102 + 600. -/
theorem get_app_jwt_spec_witness :
    get_app_jwt 100 (161, "cached") encodeC = ((161, "cached"), "cached")
      ∧ get_app_jwt 102 (161, "cached") encodeC = ((702, "jwt2"), "jwt2") := by
  constructor
  · exact (get_app_jwt_spec 100 161 "cached" encodeC).1 (by decide) (by decide)
  · exact ((get_app_jwt_spec 102 161 "cached" encodeC).2.1
      (Or.inr (by decide))).trans (by decide)

/-! ## C7: dry-run frame -/

/-- C7: under dry-run, create_pr returns the sentinel record with number -1
(the `.sentinel` constructor, as opposed to `.posted`, records that no network
request is issued), create_comment returns the sentinel -1, and
delete_remote_branch pushes no refspec to the fork remote. -/
theorem dry_run_frame (selfUsername : Option String) (title : String)
    (fromBranch fromUser toBranch body : Option String) (mcm : Bool)
    (number : Int) (commentBody branchName : String) :
    create_pr true selfUsername title fromBranch fromUser toBranch body mcm
        = .sentinel (-1)
      ∧ create_comment true number commentBody = .sentinel (-1)
      ∧ delete_remote_branch true branchName = [] :=
  ⟨rfl, rfl, rfl⟩

/-! ## C8: is_member -/

/-- C8 counterexample: failing statuses other than 404 are also swallowed
into ok false instead of propagating — a plain 400 (BadRequest itself), a 422
(InvalidField, a subclass of BadRequest) and a rate-limited 403
(RateLimitExceeded, likewise a subclass) are all caught by the
`except gidgethub.BadRequest` clause, refuting the claim that every
non-not-found failure status propagates. -/
theorem is_member_counterexample :
    classifyStatus 400 false = some (.badRequest 400)
      ∧ is_member (some "alice") (classifyStatus 400 false) = .ok false
      ∧ (400 : Nat) ≠ 404
      ∧ classifyStatus 422 false = some .invalidField
      ∧ is_member (some "alice") (classifyStatus 422 false) = .ok false
      ∧ classifyStatus 403 true = some .rateLimitExceeded
      ∧ is_member (some "alice") (classifyStatus 403 true) = .ok false := by
  refine ⟨by decide, by decide, by decide, by decide, by decide, by decide, by decide⟩

/-- C8 (amended): a not-found (404) membership response yields ok false, as
does every other failure of the gidgethub BadRequest class — generic 4xx
BadRequest as well as its subclasses InvalidField (422) and RateLimitExceeded
(rate-limited 403); only failures outside that class (GitHubBroken 5xx,
redirections, other HTTP errors) propagate unchanged, and a success yields
ok true. -/
theorem is_member_amended (username : String) (husr : username ≠ "") :
    (is_member (some username) (classifyStatus 404 false) = .ok false)
      ∧ (∀ e : GidgetError, isBadRequestClass e = true →
            is_member (some username) (some e) = .ok false)
      ∧ (∀ e : GidgetError, isBadRequestClass e = false →
            is_member (some username) (some e) = .error e)
      ∧ is_member (some username) none = .ok true := by
  have ht : pyTruthy (some username) = true := by
    simp [pyTruthy, husr]
  have h404 : classifyStatus 404 false = some (.badRequest 404) := by decide
  refine ⟨?_, ?_, ?_, ?_⟩
  · rw [h404]
    simp [is_member, ht, isBadRequestClass]
  · intro e he
    simp [is_member, ht, he]
  · intro e he
    simp [is_member, ht, he]
  · simp [is_member, ht]

/-- Witness for the amended C8: the 404 case, a swallowed InvalidField (422,
a BadRequest subclass) and a propagating server error, at username alice. -/
theorem is_member_amended_witness :
    is_member (some "alice") (classifyStatus 404 false) = .ok false
      ∧ is_member (some "alice") (some .invalidField) = .ok false
      ∧ is_member (some "alice") (some (.gitHubBroken 502)) = .error (.gitHubBroken 502) := by
  refine ⟨?_, ?_, ?_⟩
  · exact (is_member_amended "alice" (by decide)).1
  · exact (is_member_amended "alice" (by decide)).2.1 .invalidField (by decide)
  · exact (is_member_amended "alice" (by decide)).2.2.1 (.gitHubBroken 502) (by decide)

/-! ## C9: parse_isotime -/

theorem isDigit_digitChar {k : Nat} (h : k < 10) : (digitChar k).isDigit = true := by
  interval_cases k <;> decide

theorem digitVal_digitChar {k : Nat} (h : k < 10) : digitVal (digitChar k) = k := by
  interval_cases k <;> decide

theorem munch4_pad4 {y : Nat} (hy : y ≤ 9999) (rest : List Char) :
    munch4 (pad4 y ++ rest) = some (y, rest) := by
  have h1 : y / 1000 < 10 := by omega
  have h2 : y / 100 % 10 < 10 := by omega
  have h3 : y / 10 % 10 < 10 := by omega
  have h4 : y % 10 < 10 := by omega
  have hval : ((y / 1000 * 10 + y / 100 % 10) * 10 + y / 10 % 10) * 10 + y % 10 = y := by
    omega
  simp [pad4, munch4, isDigit_digitChar h1, isDigit_digitChar h2,
        isDigit_digitChar h3, isDigit_digitChar h4, digitVal_digitChar h1,
        digitVal_digitChar h2, digitVal_digitChar h3, digitVal_digitChar h4, hval]

theorem munch2_pad2 {n : Nat} (hn : n ≤ 99) (tail : List Char) :
    munch2 (pad2 n ++ tail) = some (n, tail) := by
  have h1 : n / 10 < 10 := by omega
  have h2 : n % 10 < 10 := by omega
  have hval : n / 10 * 10 + n % 10 = n := by omega
  simp [pad2, munch2, isDigit_digitChar h1, isDigit_digitChar h2,
        digitVal_digitChar h1, digitVal_digitChar h2, hval]

theorem lit_cons_self (c : Char) (t : List Char) : lit c (c :: t) = some t := by
  simp [lit]

theorem strpField_pad2 {lo hi n : Nat} (h1 : lo ≤ n) (h2 : n ≤ hi) (hn : n ≤ 99)
    (sep : Char) (tail : List Char) :
    strpField lo hi sep (pad2 n ++ sep :: tail) = some (n, tail) := by
  have hr : rangeOk lo hi n = true := by
    simp only [rangeOk, Bool.and_eq_true, decide_eq_true_iff]
    exact ⟨h1, h2⟩
  unfold strpField
  rw [munch2_pad2 hn]
  simp [hr, lit_cons_self]

theorem strpLast_pad2 {lo hi n : Nat} (h1 : lo ≤ n) (h2 : n ≤ hi) (hn : n ≤ 99) :
    strpLast lo hi (pad2 n) = some n := by
  have hr : rangeOk lo hi n = true := by
    simp only [rangeOk, Bool.and_eq_true, decide_eq_true_iff]
    exact ⟨h1, h2⟩
  unfold strpLast
  rw [← List.append_nil (pad2 n), munch2_pad2 hn]
  simp [hr]

/-- The fixed-format strptime inverts zero-padded formatting of in-range
fields. -/
theorem strptimeIso_isoBody {y mo d h mi s : Nat} (hy : y ≤ 9999)
    (hmo1 : 1 ≤ mo) (hmo2 : mo ≤ 12) (hd1 : 1 ≤ d) (hd2 : d ≤ 31)
    (hh : h ≤ 23) (hmi : mi ≤ 59) (hs : s ≤ 59) :
    strptimeIso (isoBody y mo d h mi s) = some (y, mo, d, h, mi, s) := by
  unfold strptimeIso isoBody
  simp only [List.append_assoc, List.cons_append, munch4_pad4 hy, Option.some_bind,
             lit_cons_self,
             strpField_pad2 hmo1 hmo2 (show mo ≤ 99 by omega) '-',
             strpField_pad2 hd1 hd2 (show d ≤ 99 by omega) 'T',
             strpField_pad2 (Nat.zero_le h) hh (show h ≤ 99 by omega) ':',
             strpField_pad2 (Nat.zero_le mi) hmi (show mi ≤ 99 by omega) ':',
             strpLast_pad2 (Nat.zero_le s) (show s ≤ 61 by omega) (show s ≤ 99 by omega)]

/-- C9: parse_isotime raises a ValueError for every timestamp string whose
last character is not the literal Z, without attempting repair; and it maps
every conforming zero-padded UTC ISO-8601 timestamp ending in Z to its
seconds-since-epoch value. -/
theorem parse_isotime_spec :
    (∀ (ts : String) (c : Char), ts.data.getLast? = some c → c ≠ 'Z' →
        parse_isotime ts = .error .valueError) ∧
    (∀ y mo d h mi s : Nat, y ≤ 9999 → 1 ≤ mo → mo ≤ 12 → 1 ≤ d → d ≤ 31 →
        h ≤ 23 → mi ≤ 59 → s ≤ 59 →
        parse_isotime (isoZ y mo d h mi s) = .ok (mktimeUTC y mo d h mi s)) := by
  constructor
  · intro ts c hlast hc
    unfold parse_isotime
    rw [hlast]
    simp [hc]
  · intro y mo d h mi s hy hmo1 hmo2 hd1 hd2 hh hmi hs
    unfold parse_isotime isoZ
    rw [show (String.mk (isoBody y mo d h mi s ++ ['Z'])).data
          = isoBody y mo d h mi s ++ ['Z'] from rfl]
    rw [List.getLast?_concat, List.dropLast_concat]
    rw [strptimeIso_isoBody hy hmo1 hmo2 hd1 hd2 hh hmi hs]
    simp

/-- Witness for C9: a timestamp ending in a zone offset instead of Z is a
ValueError, and a conforming timestamp parses to its known epoch value. -/
theorem parse_isotime_spec_witness :
    parse_isotime "2020-01-01T00:00:00+00:00" = .error .valueError
      ∧ parse_isotime (isoZ 2021 6 15 12 30 45) = .ok 1623760245 := by
  constructor
  · exact parse_isotime_spec.1 "2020-01-01T00:00:00+00:00" '0' (by decide) (by decide)
  · exact (parse_isotime_spec.2 2021 6 15 12 30 45 (by decide) (by decide) (by decide)
      (by decide) (by decide) (by decide) (by decide) (by decide)).trans (by decide)

/-! ## C4: get_installation_token cache -/

/-- C4: when the installation-token cache has no pair for the identifier, or
the stored expiry is unset or within 60 seconds of now, get_installation_token
makes exactly one issuance call (call count 1), stores the (parsed expires_at,
token) pair under the identifier, and returns that token; when the cached
pair's expiry is at least now + 60 it returns the identical cached token with
zero issuance calls and an unchanged cache. -/
theorem get_installation_token_spec (now : Int) (cache : TokenCache)
    (installation ea tok : String) (e1 : Int) :
    (parse_isotime ea = .ok e1 →
      (cache.lookup installation = none ∨
        (∃ e t, cache.lookup installation = some (e, t) ∧ (e = 0 ∨ e < now + 60))) →
      get_installation_token now cache installation (ea, tok)
          = .ok (setToken cache installation (e1, tok), tok, 1)
        ∧ (setToken cache installation (e1, tok)).lookup installation
            = some (e1, tok)) ∧
    (∀ e t, cache.lookup installation = some (e, t) → e ≠ 0 → now + 60 ≤ e →
      get_installation_token now cache installation (ea, tok) = .ok (cache, t, 0)) := by
  constructor
  · intro hp hmiss
    have hsl : (setToken cache installation (e1, tok)).lookup installation
        = some (e1, tok) := by
      unfold setToken
      exact lookup_cons_eq _ _ _
    refine ⟨?_, hsl⟩
    unfold get_installation_token
    rcases hmiss with hnone | ⟨e, t, hsome, hcond⟩
    · rw [hnone]
      simp [hp]
    · rw [hsome]
      have hc : (e == 0 || decide (e < now + 60)) = true := by
        rcases hcond with hx | hx <;> simp [hx]
      simp [hp, hc]
  · intro e t hsome h0 h1
    unfold get_installation_token
    rw [hsome]
    have hc : (e == 0 || decide (e < now + 60)) = false := by
      simp only [Bool.or_eq_false_iff, beq_eq_false_iff_ne, decide_eq_false_iff_not]
      exact ⟨h0, by omega⟩
    simp [hc]

/-- A concrete token cache for the witness. -/
def tcW : TokenCache := [("7", (1623760245, "old"))]

/-- Witness for C4: an empty cache triggers exactly one issuance call that is
stored and returned; a cache whose entry is more than 60 seconds from expiry
is returned as-is with zero calls. -/
theorem get_installation_token_spec_witness :
    get_installation_token 5 [] "123" (isoZ 2021 6 15 12 30 45, "tokA")
        = .ok (setToken [] "123" (1623760245, "tokA"), "tokA", 1)
      ∧ get_installation_token 1623760100 tcW "7" (isoZ 2021 6 15 12 30 45, "tokB")
        = .ok (tcW, "old", 0) := by
  constructor
  · exact ((get_installation_token_spec 5 [] "123" (isoZ 2021 6 15 12 30 45) "tokA"
      1623760245).1 (by decide) (Or.inl (by decide))).1
  · exact (get_installation_token_spec 1623760100 tcW "7" (isoZ 2021 6 15 12 30 45)
      "tokB" 0).2 1623760245 "old" (by decide) (by decide) (by decide)

/-! ## C6: commit_and_push_changes idempotence -/

theorem lookup_indexAdd (w : String → String) (m : FileMap) (f k : String) :
    (indexAdd w m f).lookup k = if k = f then some (w f) else m.lookup k := by
  unfold indexAdd
  by_cases hk : k = f
  · subst hk
    rw [lookup_cons_eq, if_pos rfl]
  · have hbe : (k == f) = false := by simpa using hk
    rw [lookup_cons_ne hbe, if_neg hk, lookup_eraseP_ne _ _ _ hbe]

theorem lookup_stage (files : List String) (w : String → String) (m : FileMap)
    (k : String) :
    (stage files w m).lookup k = if k ∈ files then some (w k) else m.lookup k := by
  induction files generalizing m with
  | nil => simp [stage]
  | cons f fs ih =>
      rw [show stage (f :: fs) w m = stage fs w (indexAdd w m f) from rfl, ih]
      by_cases hfs : k ∈ fs
      · simp [hfs, List.mem_cons]
      · by_cases hf : k = f
        · subst hf
          simp [hfs, lookup_indexAdd]
        · simp [hfs, hf, lookup_indexAdd, List.mem_cons]

theorem stage_stage_lookup (files : List String) (w : String → String) (m : FileMap)
    (k : String) :
    (stage files w (stage files w m)).lookup k = (stage files w m).lookup k := by
  rw [lookup_stage, lookup_stage]
  by_cases h : k ∈ files <;> simp [h]

theorem mem_keysFM_iff (m : FileMap) (k : String) :
    k ∈ keysFM m ↔ (m.lookup k).isSome := by
  induction m with
  | nil => simp [keysFM, List.lookup]
  | cons a t ih =>
      obtain ⟨k1, v1⟩ := a
      by_cases hk : k = k1
      · subst hk
        simp [keysFM, lookup_cons_eq]
      · have hbe : (k == k1) = false := by simpa using hk
        simp [keysFM, lookup_cons_ne hbe, hk, ih]

theorem diffEmpty_of_lookup_eq {a b : FileMap}
    (hab : ∀ k, a.lookup k = b.lookup k) : diffEmpty a b = true := by
  unfold diffEmpty
  rw [List.all_eq_true]
  intro k _
  simp [hab k]

theorem diffEmpty_congr {a a1 b : FileMap}
    (ha : ∀ k, a1.lookup k = a.lookup k) (hd : diffEmpty a b = true) :
    diffEmpty a1 b = true := by
  unfold diffEmpty at hd ⊢
  rw [List.all_eq_true] at hd ⊢
  intro k hk
  rw [List.mem_append] at hk
  have hkab : k ∈ keysFM a ++ keysFM b := by
    rw [List.mem_append]
    rcases hk with hk | hk
    · left
      rw [mem_keysFM_iff] at hk
      rw [mem_keysFM_iff, ← ha k]
      exact hk
    · right
      exact hk
  have hres := hd k hkab
  simpa [ha k] using hres

theorem commit_second_call (dryRun : Bool) (pushFlags : Nat) (pushSummary : String)
    (st1 : GitState) (files : List String) (branchName msg : String) (sign : Bool)
    (hdiff : diffEmpty (stage files st1.workdir st1.index) st1.head = true) :
    commit_and_push_changes dryRun pushFlags pushSummary st1 files branchName msg sign
      = .ok ({ st1 with index := stage files st1.workdir st1.index }, false) := by
  simp [commit_and_push_changes, hdiff]

/-- C6: whenever staging the given files produces no difference against the
current HEAD, commit_and_push_changes returns false before the commit and push
steps (commit list and push list unchanged); consequently a second call in
direct succession after any successful call — same files, unchanged working
tree — returns false, creates no commit and performs no push. -/
theorem commit_and_push_changes_idempotent (dryRun : Bool) (pushFlags : Nat)
    (pushSummary : String) (st : GitState) (files : List String)
    (branchName msg : String) (sign : Bool) :
    (diffEmpty (stage files st.workdir st.index) st.head = true →
      commit_and_push_changes dryRun pushFlags pushSummary st files branchName msg sign
        = .ok ({ st with index := stage files st.workdir st.index }, false)) ∧
    (∀ st1 r1,
      commit_and_push_changes dryRun pushFlags pushSummary st files branchName msg sign
        = .ok (st1, r1) →
      commit_and_push_changes dryRun pushFlags pushSummary st1 files branchName msg sign
        = .ok ({ st1 with index := stage files st1.workdir st1.index }, false)
        ∧ ({ st1 with index := stage files st1.workdir st1.index } : GitState).commits
            = st1.commits
        ∧ ({ st1 with index := stage files st1.workdir st1.index } : GitState).pushes
            = st1.pushes) := by
  constructor
  · intro hdiff
    simp [commit_and_push_changes, hdiff]
  · intro st1 r1 hcall
    simp only [commit_and_push_changes] at hcall
    by_cases hd : diffEmpty (stage files st.workdir st.index) st.head = true
    · rw [if_pos hd] at hcall
      simp only [Except.ok.injEq, Prod.mk.injEq] at hcall
      obtain ⟨h1, _⟩ := hcall
      subst h1
      exact ⟨commit_second_call dryRun pushFlags pushSummary _ files branchName msg sign
        (diffEmpty_congr (fun k => stage_stage_lookup files st.workdir st.index k) hd),
        rfl, rfl⟩
    · rw [if_neg hd] at hcall
      have hdiff2 : diffEmpty (stage files st.workdir (stage files st.workdir st.index))
          (stage files st.workdir st.index) = true :=
        diffEmpty_of_lookup_eq (fun k => stage_stage_lookup files st.workdir st.index k)
      cases hdr : dryRun with
      | true =>
          rw [hdr] at hcall
          simp only [Bool.not_true, Bool.false_eq_true, if_false,
                     Except.ok.injEq, Prod.mk.injEq] at hcall
          obtain ⟨h1, _⟩ := hcall
          subst h1
          exact ⟨commit_second_call true pushFlags pushSummary _ files branchName msg sign
            hdiff2, rfl, rfl⟩
      | false =>
          rw [hdr] at hcall
          simp only [Bool.not_false, if_true] at hcall
          by_cases hflag : (pushFlags &&& (FAST_FORWARD ||| NEW_HEAD) != pushFlags) = true
          · rw [if_pos hflag] at hcall
            simp at hcall
          · rw [if_neg hflag] at hcall
            simp only [Except.ok.injEq, Prod.mk.injEq] at hcall
            obtain ⟨h1, _⟩ := hcall
            subst h1
            exact ⟨commit_second_call false pushFlags pushSummary _ files branchName msg
              sign hdiff2, rfl, rfl⟩

/-- The working tree used by the C6 witness. -/
def wdC : String → String := fun _ => "content"

/-- State after the witness's first call: file f staged and committed. -/
def st1C : GitState :=
  { workdir := wdC, index := [("f", "content")], head := [("f", "content")],
    commits := ["msg"], pushes := [] }

/-- Witness for C6: after a first dry-run call that commits file f, the second
identical call returns false with commits and pushes untouched. -/
theorem commit_and_push_changes_idempotent_witness :
    commit_and_push_changes true 0 "" st1C ["f"] "branch" "msg" false
      = .ok ({ st1C with index := stage ["f"] st1C.workdir st1C.index }, false) :=
  ((commit_and_push_changes_idempotent true 0 ""
      { workdir := wdC, index := [], head := [], commits := [], pushes := [] }
      ["f"] "branch" "msg" false).2 st1C true (by rfl)).1

/-! ## C10: get_github_api dry-run invariant -/

/-- C10: given that every cached handler has dry_run = false (trivially true
for the initially empty cache), after get_github_api every stored handler
still has dry_run = false and the returned handler has dry_run = false, so
create_pr, modify_issue and create_comment invoked through it take the real
network path (.posted / .patched), never the dry-run sentinel path. -/
theorem get_github_api_dry_run_false (handlers : HandlerCache)
    (installation user repo freshToken : String)
    (hinv : ∀ kh ∈ handlers, kh.2.dry_run = false) :
    (∀ kh ∈ (get_github_api handlers installation user repo freshToken).1,
        kh.2.dry_run = false)
      ∧ (get_github_api handlers installation user repo freshToken).2.dry_run = false
      ∧ (∀ selfU title fb fu tb body mcm, ∃ d,
          create_pr (get_github_api handlers installation user repo freshToken).2.dry_run
            selfU title fb fu tb body mcm = .posted d)
      ∧ (∀ number labels title body, ∃ d,
          modify_issue
            (get_github_api handlers installation user repo freshToken).2.dry_run
            number labels title body = .patched number d)
      ∧ (∀ number body,
          create_comment
            (get_github_api handlers installation user repo freshToken).2.dry_run
            number body = .posted number body) := by
  have main : (∀ kh ∈ (get_github_api handlers installation user repo freshToken).1,
      kh.2.dry_run = false)
      ∧ (get_github_api handlers installation user repo freshToken).2.dry_run
          = false := by
    cases hl : handlers.lookup (installation, repo) with
    | some api =>
        have hapi : api.dry_run = false := hinv ((installation, repo), api) (lookup_mem hl)
        have hg : get_github_api handlers installation user repo freshToken
            = (setHandler handlers (installation, repo) { api with token := freshToken },
               { api with token := freshToken }) := by
          simp [get_github_api, hl]
        rw [hg]
        refine ⟨?_, hapi⟩
        intro kh hkh
        unfold setHandler at hkh
        rcases List.mem_cons.mp hkh with rfl | hkh2
        · exact hapi
        · exact hinv kh ((List.eraseP_sublist _).subset hkh2)
    | none =>
        have hg : get_github_api handlers installation user repo freshToken
            = (setHandler handlers (installation, repo)
                 { token := freshToken, dry_run := false,
                   to_user := user, to_repo := repo },
               { token := freshToken, dry_run := false,
                 to_user := user, to_repo := repo }) := by
          simp [get_github_api, hl]
        rw [hg]
        refine ⟨?_, rfl⟩
        intro kh hkh
        unfold setHandler at hkh
        rcases List.mem_cons.mp hkh with rfl | hkh2
        · rfl
        · exact hinv kh ((List.eraseP_sublist _).subset hkh2)
  obtain ⟨hcache, hdr⟩ := main
  refine ⟨hcache, hdr, ?_, ?_, ?_⟩
  · intro selfU title fb fu tb body mcm
    rw [hdr]
    exact ⟨_, rfl⟩
  · intro number labels title body
    rw [hdr]
    exact ⟨_, rfl⟩
  · intro number body
    rw [hdr]
    rfl

/-- Witness for C10: routing an event for installation 5 on acme/widgets
through an empty handler cache yields a handler with dry_run = false. -/
theorem get_github_api_dry_run_false_witness :
    (get_github_api [] "5" "acme" "widgets" "tokenT").2.dry_run = false :=
  (get_github_api_dry_run_false [] "5" "acme" "widgets" "tokenT"
    (by intro kh hkh; cases hkh)).2.1

/-! ## C1: read_from_branch path containment -/

/-- C1 exhibits the path-containment bug of read_from_branch: with repository
root /repo and file argument /repo/../repository/secret — whose absolute
normalized form is /repository/secret, outside the /repo root — the
startswith check still accepts the path, because /repo is a string prefix
(though not a directory prefix) of /repository/secret; the function then
reads from the branch tree (under the mangled relative path sitory/secret)
instead of raising the path-outside-repository RuntimeError. -/
theorem read_from_branch_escapes_root :
    abspath "/" "/repo/../repository/secret" = "/repository/secret"
      ∧ abspath "/" "/repo" = "/repo"
      ∧ isInsideDir (abspath "/" "/repo/../repository/secret") (abspath "/" "/repo")
          = false
      ∧ read_from_branch "/" "/repo" "/repo/../repository/secret"
          (fun p => if p = "sitory/secret" then some "SECRET" else none)
          = .ok "SECRET" := by
  refine ⟨by decide, by decide, by decide, by decide⟩

end Bioconda
